import Mathlib

/-!
Verification development for the n8n `import:credentials` CLI command
(`packages/cli/src/commands/import/credentials.ts`, class
`ImportCredentialsCommand`).

The command is shallowly embedded: JSON values are an inductive type,
the database is an explicit state record (credential rows, ownership-link
rows, and the Postgres identifier sequence), database statements are
events in a trace, and the fallible parts return `Except`.  JavaScript
quirks that the claims depend on are modelled faithfully:
`typeof x === "object"` is true for objects, arrays and `null`;
reading `.length` of `null` throws a `TypeError`; property access on a
non-object primitive yields `undefined` (here: `Option.none`).
-/

namespace N8n

/-- JSON values, the result of `JSON.parse` / `jsonParse`. -/
inductive JVal where
  | null : JVal
  | bool : Bool → JVal
  | num : Int → JVal
  | str : String → JVal
  | arr : List JVal → JVal
  | obj : List (String × JVal) → JVal

mutual

/-- Structural equality on JSON values (used to decide upsert-key
conflicts on concrete data). -/
def beqJ : JVal → JVal → Bool
  | .null, .null => true
  | .bool a, .bool b => a == b
  | .num a, .num b => a == b
  | .str a, .str b => a == b
  | .arr a, .arr b => beqL a b
  | .obj a, .obj b => beqO a b
  | _, _ => false

/-- Structural equality on lists of JSON values. -/
def beqL : List JVal → List JVal → Bool
  | [], [] => true
  | x :: xs, y :: ys => beqJ x y && beqL xs ys
  | _, _ => false

/-- Structural equality on JSON object field lists. -/
def beqO : List (String × JVal) → List (String × JVal) → Bool
  | [], [] => true
  | (k, v) :: xs, (l, w) :: ys => k == l && beqJ v w && beqO xs ys
  | _, _ => false

end

mutual

theorem beqJ_iff : ∀ a b, beqJ a b = true ↔ a = b
  | .null, .null => by simp [beqJ]
  | .bool _, .bool _ => by simp [beqJ]
  | .num _, .num _ => by simp [beqJ]
  | .str _, .str _ => by simp [beqJ]
  | .arr a, .arr b => by simp [beqJ, beqL_iff a b]
  | .obj a, .obj b => by simp [beqJ, beqO_iff a b]
  | .null, .bool _ => by simp [beqJ]
  | .null, .num _ => by simp [beqJ]
  | .null, .str _ => by simp [beqJ]
  | .null, .arr _ => by simp [beqJ]
  | .null, .obj _ => by simp [beqJ]
  | .bool _, .null => by simp [beqJ]
  | .bool _, .num _ => by simp [beqJ]
  | .bool _, .str _ => by simp [beqJ]
  | .bool _, .arr _ => by simp [beqJ]
  | .bool _, .obj _ => by simp [beqJ]
  | .num _, .null => by simp [beqJ]
  | .num _, .bool _ => by simp [beqJ]
  | .num _, .str _ => by simp [beqJ]
  | .num _, .arr _ => by simp [beqJ]
  | .num _, .obj _ => by simp [beqJ]
  | .str _, .null => by simp [beqJ]
  | .str _, .bool _ => by simp [beqJ]
  | .str _, .num _ => by simp [beqJ]
  | .str _, .arr _ => by simp [beqJ]
  | .str _, .obj _ => by simp [beqJ]
  | .arr _, .null => by simp [beqJ]
  | .arr _, .bool _ => by simp [beqJ]
  | .arr _, .num _ => by simp [beqJ]
  | .arr _, .str _ => by simp [beqJ]
  | .arr _, .obj _ => by simp [beqJ]
  | .obj _, .null => by simp [beqJ]
  | .obj _, .bool _ => by simp [beqJ]
  | .obj _, .num _ => by simp [beqJ]
  | .obj _, .str _ => by simp [beqJ]
  | .obj _, .arr _ => by simp [beqJ]

theorem beqL_iff : ∀ a b, beqL a b = true ↔ a = b
  | [], [] => by simp [beqL]
  | x :: xs, y :: ys => by simp [beqL, beqJ_iff x y, beqL_iff xs ys]
  | [], _ :: _ => by simp [beqL]
  | _ :: _, [] => by simp [beqL]

theorem beqO_iff : ∀ a b, beqO a b = true ↔ a = b
  | [], [] => by simp [beqO]
  | (k, v) :: xs, (l, w) :: ys => by
      simp [beqO, beqJ_iff v w, beqO_iff xs ys, Prod.ext_iff, and_assoc]
  | [], _ :: _ => by simp [beqO]
  | _ :: _, [] => by simp [beqO]

end

instance : DecidableEq JVal := fun a b =>
  decidable_of_iff (beqJ a b = true) (beqJ_iff a b)

mutual

/-- `JSON.stringify` on the embedded JSON values (used by the modelled
encryption primitive, which encrypts the serialized payload). -/
def serialize : JVal → String
  | .null => "null"
  | .bool b => if b then "true" else "false"
  | .num n => toString n
  | .str s => "\"" ++ s ++ "\""
  | .arr xs => "[" ++ serializeList xs ++ "]"
  | .obj fs => "\x7b" ++ serializeFields fs ++ "\x7d"

/-- Comma-separated serialization of array elements. -/
def serializeList : List JVal → String
  | [] => ""
  | [x] => serialize x
  | x :: xs => serialize x ++ "," ++ serializeList xs

/-- Comma-separated serialization of object fields. -/
def serializeFields : List (String × JVal) → String
  | [] => ""
  | [(k, v)] => "\"" ++ k ++ "\":" ++ serialize v
  | (k, v) :: fs => "\"" ++ k ++ "\":" ++ serialize v ++ "," ++ serializeFields fs

end

/-- Modelled from the spec: the role-tag constant for the global owner
account (`ROLES.GLOBAL_OWNER` from `@/constants`, which is not under
`src/`). The spec only requires it to be a fixed tag distinguishing the
single administrative account. -/
def GLOBAL_OWNER_ROLE : String := "global:owner"

/-- Modelled from the spec: the role-tag constant for ownership links
(`ROLES.CREDENTIAL_OWNER` from `@/constants`, not under `src/`); the
spec fixes it to the credential-owner tag. -/
def CREDENTIAL_OWNER_ROLE : String := "credential:owner"

/-- Modelled from the spec: the corrective-setup instruction appended to
the owner-lookup failure message (`UM_FIX_INSTRUCTION` from
`BaseCommand`, not under `src/`). -/
def UM_FIX_INSTRUCTION : String :=
  "Please fix the database by running ./packages/cli/bin/n8n user-management:reset"

/-- Modelled from the spec: the encryption primitive
(`Credentials.prototype.setData` from `n8n-core`, not under `src/`): it
takes the configured key and the plaintext payload, serializes the
payload, and returns an opaque encrypted string. Deterministic in the
key and the payload. -/
def encrypt (key : String) (plain : JVal) : String :=
  "aes(" ++ key ++ ")(" ++ serialize plain ++ ")"

/-- A user-account row (`User` entity): identifier and global role tag. -/
structure User where
  id : String
  role : String
deriving DecidableEq

/-- A credential record / credential-table row (`ICredentialsEncrypted`
shape as the command uses it): `id`, `name`, `type` and `data` fields
read off the parsed JSON object; a missing field is `none`
(JavaScript `undefined`). -/
structure Credential where
  id : Option JVal
  name : Option JVal
  ctype : Option JVal
  data : Option JVal
deriving DecidableEq

/-- An ownership-link row (`SharedCredentials` entity as the command
writes it): credential identifier, user identifier, role tag. -/
structure SharedCredentialRow where
  credentialsId : Option JVal
  userId : String
  role : String
deriving DecidableEq

/-- The database state the command touches: the credential table, the
ownership-link table, and the value of the Postgres identifier sequence
`credentials_entity_id_seq` (`none` when never set). -/
structure DbState where
  credentials : List Credential
  sharedCredentials : List SharedCredentialRow
  seq : Option Int
deriving DecidableEq

/-- The empty database. -/
def emptyDb : DbState := ⟨[], [], none⟩

/-- JavaScript `typeof x === "object"` on an optional field value: true
for objects, arrays and `null`; false for strings, numbers, booleans and
`undefined` (absent field). -/
def jsTypeofIsObject : Option JVal → Bool
  | some (.obj _) => true
  | some (.arr _) => true
  | some .null => true
  | _ => false

/-- The in-loop encryption step of `run`: if
`typeof credential.data === "object"` the payload is plain data and
`Credentials.prototype.setData.call(credential, credential.data,
encryptionKey)` replaces it by its encrypted string form; otherwise the
record is left untouched. -/
def normalizeCredential (encryptionKey : String) (c : Credential) : Credential :=
  if jsTypeofIsObject c.data then
    { c with data := some (.str (encrypt encryptionKey (c.data.getD .null))) }
  else c

/-- JavaScript property read `v[k]` on a parsed JSON value: throws a
`TypeError` on `null`, returns the field on an object, and yields
`undefined` (`none`) on any other primitive or on an array. -/
def jsGetField : JVal → String → Except String (Option JVal)
  | .null, _ => .error "TypeError: Cannot read properties of null"
  | .obj fields, k =>
      .ok ((fields.find? (fun f => f.fst == k)).map (fun f => f.snd))
  | _, _ => .ok none

/-- Reads the credential-shaped fields off one parsed JSON record, the
way the loop body accesses them (`credential.data`, and the columns the
upsert persists). Fails with the `TypeError` exactly when the record is
`null`. -/
def toCredential (v : JVal) : Except String Credential := do
  let i ← jsGetField v "id"
  let n ← jsGetField v "name"
  let t ← jsGetField v "type"
  let d ← jsGetField v "data"
  return ⟨i, n, t, d⟩

/-- Upsert-key comparison on the `id` column: two rows conflict when
both hold an identifier and the identifiers are equal; a missing
identifier (SQL `NULL`) never conflicts with anything. -/
def idMatches (a b : Option JVal) : Bool :=
  match a, b with
  | some x, some y => beqJ x y
  | _, _ => false

/-- `transactionManager.upsert(CredentialsEntity, credential, ["id"])`:
replace every row conflicting on `id` with the new row, or append the
new row when no conflict exists. -/
def upsertCredentials (rows : List Credential) (r : Credential) : List Credential :=
  if rows.any (fun row => idMatches row.id r.id) then
    rows.map (fun row => if idMatches row.id r.id then r else row)
  else rows ++ [r]

/-- Upsert-key comparison for the ownership-link table: the composite
key is the (credential identifier, user identifier) pair. -/
def sharedKeyMatches (a b : SharedCredentialRow) : Bool :=
  idMatches a.credentialsId b.credentialsId && a.userId == b.userId

/-- `transactionManager.upsert(SharedCredentials, ..., ["credentialsId",
"userId"])`: replace on key conflict, append otherwise. -/
def upsertSharedCredentials (rows : List SharedCredentialRow)
    (r : SharedCredentialRow) : List SharedCredentialRow :=
  if rows.any (fun row => sharedKeyMatches row r) then
    rows.map (fun row => if sharedKeyMatches row r then r else row)
  else rows ++ [r]

/-- `SELECT MAX(id) FROM credentials_entity`: the maximum of the numeric
identifiers stored in the credential table (`none` = SQL `NULL` when no
numeric identifier exists). -/
def credMaxId (rows : List Credential) : Option Int :=
  (rows.filterMap (fun c =>
    match c.id with
    | some (.num n) => some n
    | _ => none)).max?

/-- One database statement executed by the command, as an observable
event: a credential upsert (carrying the record identifier), an
ownership-link upsert (credential identifier, user identifier), or the
Postgres `setval` sequence-repair query. -/
inductive DbEvent where
  | upsertCredential : Option JVal → DbEvent
  | upsertSharedCredential : Option JVal → String → DbEvent
  | setSequence : DbEvent
deriving DecidableEq

/-- Failure injection for the persistence layer: `failAt = some k` makes
the k-th database statement of the invocation throw (0-based); `none`
means every statement succeeds. -/
structure Oracle where
  failAt : Option Nat
deriving DecidableEq

/-- The running state inside the transaction: the database, the trace of
executed statements, and the statement counter consulted by the
oracle. -/
structure TxState where
  db : DbState
  events : List DbEvent
  ops : Nat
deriving DecidableEq

/-- Executes one database statement: either the oracle makes it throw,
or the state transformer is applied and the statement is recorded. -/
def txWrite (o : Oracle) (ev : DbEvent) (f : DbState → DbState)
    (s : TxState) : Except String TxState :=
  if o.failAt = some s.ops then .error "Database write failed"
  else .ok ⟨f s.db, s.events ++ [ev], s.ops + 1⟩

/-- `ImportCredentialsCommand.storeCredential`: upserts the credential
row keyed on `id`, then upserts the ownership link keyed on
(`credentialsId`, `userId`) with the credential-owner role —
`result.identifiers[0].id` of the first upsert is the record's own
identifier — and, when the configured backend is `postgresdb`, runs the
`setval` query setting the identifier sequence to the current maximum
identifier in the credential table. -/
def storeCredential (o : Oracle) (dbType : String) (cred : Credential)
    (user : User) (s : TxState) : Except String TxState := do
  let s ← txWrite o (.upsertCredential cred.id)
    (fun db => { db with credentials := upsertCredentials db.credentials cred }) s
  let s ← txWrite o (.upsertSharedCredential cred.id user.id)
    (fun db => { db with sharedCredentials :=
      upsertSharedCredentials db.sharedCredentials ⟨cred.id, user.id, CREDENTIAL_OWNER_ROLE⟩ }) s
  if dbType = "postgresdb" then
    txWrite o .setSequence (fun db => { db with seq := credMaxId db.credentials }) s
  else
    return s

/-- The loop body shared by both modes, iterated over the parsed
records: read the record's fields (a `null` record throws the
`TypeError` of `credential.data`), encrypt a plain payload, and store
the record. -/
def importLoop (o : Oracle) (dbType encryptionKey : String) (user : User) :
    List JVal → TxState → Except String TxState
  | [], s => .ok s
  | v :: rest, s => do
      let c ← toCredential v
      let s ← storeCredential o dbType (normalizeCredential encryptionKey c) user s
      importLoop o dbType encryptionKey user rest s

/-- `ImportCredentialsCommand.getOwner`: first user row holding the
global-owner role, or a descriptive failure naming the corrective
instruction. -/
def getOwner (users : List User) : Except String User :=
  match users.find? (fun u => u.role == GLOBAL_OWNER_ROLE) with
  | some owner => .ok owner
  | none => .error ("Failed to find owner. " ++ UM_FIX_INSTRUCTION)

/-- `ImportCredentialsCommand.getAssignee`: the user row with the given
identifier, or a descriptive failure naming that identifier. -/
def getAssignee (users : List User) (userId : String) : Except String User :=
  match users.find? (fun u => u.id == userId) with
  | some user => .ok user
  | none => .error ("Failed to find user with ID " ++ userId)

/-- Line 108 of the command:
`flags.userId ? await this.getAssignee(flags.userId) : await this.getOwner()`. -/
def resolveUser (users : List User) (userId : Option String) : Except String User :=
  match userId with
  | some uid => getAssignee users uid
  | none => getOwner users

/-- JavaScript `credentials.length` on the parsed value: throws a
`TypeError` on `null`, is the element count on an array, the character
count on a string, and `undefined` (`none`) otherwise. -/
def jsLengthOf : JVal → Except String (Option Nat)
  | .null => .error "TypeError: Cannot read properties of null"
  | .arr xs => .ok (some xs.length)
  | .str s => .ok (some s.length)
  | _ => .ok none

/-- The filesystem state of the `--input` path: missing, an existing
file whose content parses to a JSON value, an existing file with invalid
JSON, or an existing directory whose `*.json` files parse to the listed
values (in glob order). -/
inductive InputPath where
  | missing : InputPath
  | file : JVal → InputPath
  | fileInvalid : InputPath
  | dir : List JVal → InputPath
deriving DecidableEq

/-- `fs.existsSync` on the input path. -/
def pathExists : InputPath → Bool
  | .missing => false
  | _ => true

/-- `fs.lstatSync(path).isDirectory()` on the input path. -/
def isDirectory : InputPath → Bool
  | .dir _ => true
  | _ => false

/-- `glob("*.json", { cwd: inputPath })`: the directory's JSON files; a
nonexistent directory yields the empty list (fast-glob does not throw). -/
def globFiles : InputPath → List JVal
  | .dir files => files
  | _ => []

/-- `jsonParse(fs.readFileSync(path))` in single-file mode: `ENOENT` on
a missing path, `EISDIR` when the path is a directory, a parse failure
on invalid JSON, and the parsed value otherwise. -/
def readFileParse : InputPath → Except String JVal
  | .missing => .error "ENOENT: no such file or directory"
  | .dir _ => .error "EISDIR: illegal operation on a directory, read"
  | .fileInvalid => .error "Failed to parse JSON"
  | .file v => .ok v

/-- The command's flags: `--input` (the path, given here together with
its filesystem state), `--separate`, and `--userId`. -/
structure Flags where
  input : Option InputPath
  separate : Bool
  userId : Option String
deriving DecidableEq

/-- The environment of one invocation: the user table, the configured
encryption key, and the configured database backend identifier. -/
structure Env where
  users : List User
  encryptionKey : String
  dbType : String
deriving DecidableEq

/-- How one invocation ends: an early `return` after `logger.info` (soft
exit), the success report with the imported-records count, or a thrown
error (caught by the command's `catch`, which logs it). -/
inductive RunResult where
  | softExit : String → RunResult
  | success : Nat → RunResult
  | failure : String → RunResult
deriving DecidableEq

/-- The observable outcome of one invocation: the result, the database
state after commit or rollback, and the trace of committed database
statements (empty when the transaction rolled back or was never
opened). -/
structure RunOutcome where
  result : RunResult
  db : DbState
  events : List DbEvent
deriving DecidableEq

/-- Wraps the import loop in
`Db.getConnection().transaction(...)`: on success the new state and its
statement trace are committed; when the body throws, everything is
rolled back and the error propagates. -/
def runTransaction (o : Oracle) (dbType encryptionKey : String) (user : User)
    (records : List JVal) (db : DbState) : Except String (DbState × List DbEvent) :=
  match importLoop o dbType encryptionKey user records ⟨db, [], 0⟩ with
  | .error e => .error e
  | .ok s => .ok (s.db, s.events)

/-- `ImportCredentialsCommand.run`, both modes. Mirrors the source
order: the missing `--input` soft exit; the `--separate` check that soft
exits only when the path exists and is not a directory; assignee
resolution; then either the directory walk (glob, count, one transaction
over all files) or the single-file path (read and parse, read
`credentials.length` before the `Array.isArray` check, then one
transaction over the array). Any thrown error leaves the database as it
was (rollback or no transaction at all). -/
def run (o : Oracle) (env : Env) (flags : Flags) (db : DbState) : RunOutcome :=
  match flags.input with
  | none => ⟨.softExit "An input file or directory with --input must be provided", db, []⟩
  | some inp =>
    if flags.separate && pathExists inp && !(isDirectory inp) then
      ⟨.softExit "The argument to --input must be a directory", db, []⟩
    else
      match resolveUser env.users flags.userId with
      | .error e => ⟨.failure e, db, []⟩
      | .ok user =>
        if flags.separate then
          let files := globFiles inp
          let totalImported := files.length
          match runTransaction o env.dbType env.encryptionKey user files db with
          | .error e => ⟨.failure e, db, []⟩
          | .ok (db2, evs) => ⟨.success totalImported, db2, evs⟩
        else
          match readFileParse inp with
          | .error e => ⟨.failure e, db, []⟩
          | .ok v =>
            match jsLengthOf v with
            | .error e => ⟨.failure e, db, []⟩
            | .ok _ =>
              match v with
              | .arr records =>
                match runTransaction o env.dbType env.encryptionKey user records db with
                | .error e => ⟨.failure e, db, []⟩
                | .ok (db2, evs) => ⟨.success records.length, db2, evs⟩
              | _ =>
                ⟨.failure "File does not seem to contain credentials. Make sure the credentials are contained in an array.", db, []⟩

/-! ### Pure-state view of the persistence layer

When the oracle injects no failure, the transaction body is a fold of a
pure state transformer over the normalized records; the lemmas below
establish that correspondence and are the basis of the batch-level
theorems. -/

/-- The pure database effect of `storeCredential` on one record:
credential upsert, ownership-link upsert, and (on Postgres) the
sequence repair computed from the already-updated credential table. -/
def applyStore (dbType : String) (user : User) (db : DbState) (c : Credential) : DbState :=
  let creds := upsertCredentials db.credentials c
  { credentials := creds,
    sharedCredentials :=
      upsertSharedCredentials db.sharedCredentials ⟨c.id, user.id, CREDENTIAL_OWNER_ROLE⟩,
    seq := if dbType = "postgresdb" then credMaxId creds else db.seq }

/-- The pure database effect of the whole batch. -/
def applyRecords (dbType : String) (user : User) (cs : List Credential)
    (db : DbState) : DbState :=
  cs.foldl (applyStore dbType user) db

/-- The ownership link written for one stored record. -/
def linkOf (user : User) (c : Credential) : SharedCredentialRow :=
  ⟨c.id, user.id, CREDENTIAL_OWNER_ROLE⟩

/-- The statements `storeCredential` executes for one record. -/
def storeEvents (dbType : String) (user : User) (c : Credential) : List DbEvent :=
  [.upsertCredential c.id, .upsertSharedCredential c.id user.id] ++
    (if dbType = "postgresdb" then [.setSequence] else [])

/-- The statements the transaction executes for the whole batch. -/
def batchEvents (dbType : String) (user : User) (cs : List Credential) : List DbEvent :=
  (cs.map (storeEvents dbType user)).flatten

/-- Recognizes the sequence-repair statement in a trace. -/
def isSetSeq : DbEvent → Bool
  | .setSequence => true
  | _ => false

/-- Number of sequence-repair statements in a trace. -/
def countSetSeq (evs : List DbEvent) : Nat :=
  (evs.filter isSetSeq).length

/-- Whether every sequence-repair statement of a trace comes after every
row write — the shape a repair performed once, after the loop, would
have. -/
def seqRepairOnlyAfterWrites (evs : List DbEvent) : Bool :=
  (evs.dropWhile (fun e => !(isSetSeq e))).all isSetSeq

theorem normalizeCredential_id (key : String) (c : Credential) :
    (normalizeCredential key c).id = c.id := by
  unfold normalizeCredential; split <;> rfl

theorem idMatches_iff (a b : Option JVal) :
    idMatches a b = true ↔ ∃ x, a = some x ∧ b = some x := by
  cases a with
  | none => simp [idMatches]
  | some x =>
    cases b with
    | none => simp [idMatches]
    | some y => simp [idMatches, beqJ_iff]; aesop

theorem idMatches_self (a : Option JVal) (h : a.isSome = true) :
    idMatches a a = true := by
  cases a with
  | none => simp at h
  | some x => simp [idMatches_iff]

theorem sharedKeyMatches_iff (a b : SharedCredentialRow) :
    sharedKeyMatches a b = true ↔
      (∃ x, a.credentialsId = some x ∧ b.credentialsId = some x) ∧ a.userId = b.userId := by
  simp [sharedKeyMatches, idMatches_iff]

theorem applyStore_credentials (dbType : String) (user : User) (db : DbState)
    (c : Credential) :
    (applyStore dbType user db c).credentials = upsertCredentials db.credentials c := rfl

theorem applyStore_shared (dbType : String) (user : User) (db : DbState)
    (c : Credential) :
    (applyStore dbType user db c).sharedCredentials =
      upsertSharedCredentials db.sharedCredentials (linkOf user c) := rfl

theorem applyStore_seq (dbType : String) (user : User) (db : DbState)
    (c : Credential) :
    (applyStore dbType user db c).seq =
      if dbType = "postgresdb" then credMaxId (upsertCredentials db.credentials c)
      else db.seq := rfl

theorem storeCredential_ok (o : Oracle) (dbType : String) (c : Credential)
    (user : User) (s : TxState) (h : o.failAt = none) :
    storeCredential o dbType c user s =
      .ok ⟨applyStore dbType user s.db c,
           s.events ++ storeEvents dbType user c,
           s.ops + (storeEvents dbType user c).length⟩ := by
  unfold storeCredential txWrite
  simp only [h, reduceCtorEq, if_false, bind, Except.bind]
  split
  · next hp => simp [applyStore, storeEvents, hp]
  · next hp => simp [pure, Except.pure, applyStore, storeEvents, hp]

/-- Decodes a list of parsed records the way the loop reads them, field
accesses included: fails on the first record whose field read throws. -/
def decodeRecords : List JVal → Except String (List Credential)
  | [] => .ok []
  | v :: rest => do
      let c ← toCredential v
      let cs ← decodeRecords rest
      return c :: cs

theorem importLoop_ok (o : Oracle) (dbType key : String) (user : User) :
    ∀ (vs : List JVal) (cs : List Credential) (s : TxState),
    o.failAt = none →
    decodeRecords vs = Except.ok cs →
    importLoop o dbType key user vs s =
      .ok ⟨applyRecords dbType user (cs.map (normalizeCredential key)) s.db,
           s.events ++ batchEvents dbType user (cs.map (normalizeCredential key)),
           s.ops + (batchEvents dbType user (cs.map (normalizeCredential key))).length⟩
  | [], cs, s, h, hdec => by
      simp only [decodeRecords, Except.ok.injEq] at hdec
      subst hdec
      simp [importLoop, applyRecords, batchEvents]
  | v :: rest, cs, s, h, hdec => by
      cases h1 : toCredential v with
      | error e => simp [decodeRecords, h1, bind, Except.bind] at hdec
      | ok c =>
        cases h2 : decodeRecords rest with
        | error e => simp [decodeRecords, h1, h2, bind, Except.bind] at hdec
        | ok cs' =>
          simp only [decodeRecords, h1, h2, bind, Except.bind, pure, Except.pure,
            Except.ok.injEq] at hdec
          subst hdec
          have hrec := importLoop_ok o dbType key user rest cs'
            ⟨applyStore dbType user s.db (normalizeCredential key c),
             s.events ++ storeEvents dbType user (normalizeCredential key c),
             s.ops + (storeEvents dbType user (normalizeCredential key c)).length⟩ h h2
          simp only [importLoop, h1, bind, Except.bind,
            storeCredential_ok o dbType (normalizeCredential key c) user s h, hrec]
          simp [applyRecords, batchEvents, List.append_assoc]
          omega

theorem runTransaction_ok (o : Oracle) (dbType key : String) (user : User)
    (records : List JVal) (cs : List Credential) (db : DbState)
    (h : o.failAt = none) (hdec : decodeRecords records = Except.ok cs) :
    runTransaction o dbType key user records db =
      .ok (applyRecords dbType user (cs.map (normalizeCredential key)) db,
           batchEvents dbType user (cs.map (normalizeCredential key))) := by
  simp [runTransaction, importLoop_ok o dbType key user records cs ⟨db, [], 0⟩ h hdec]

theorem run_single_ok (o : Oracle) (env : Env) (uid : Option String) (user : User)
    (vs : List JVal) (cs : List Credential) (db : DbState)
    (h : o.failAt = none) (hres : resolveUser env.users uid = .ok user)
    (hdec : decodeRecords vs = Except.ok cs) :
    run o env ⟨some (.file (.arr vs)), false, uid⟩ db =
      ⟨.success vs.length,
       applyRecords env.dbType user (cs.map (normalizeCredential env.encryptionKey)) db,
       batchEvents env.dbType user (cs.map (normalizeCredential env.encryptionKey))⟩ := by
  unfold run
  simp [hres, readFileParse, jsLengthOf,
    runTransaction_ok o env.dbType env.encryptionKey user vs cs db h hdec]

theorem run_separate_ok (o : Oracle) (env : Env) (uid : Option String) (user : User)
    (vs : List JVal) (cs : List Credential) (db : DbState)
    (h : o.failAt = none) (hres : resolveUser env.users uid = .ok user)
    (hdec : decodeRecords vs = Except.ok cs) :
    run o env ⟨some (.dir vs), true, uid⟩ db =
      ⟨.success vs.length,
       applyRecords env.dbType user (cs.map (normalizeCredential env.encryptionKey)) db,
       batchEvents env.dbType user (cs.map (normalizeCredential env.encryptionKey))⟩ := by
  unfold run
  simp [hres, pathExists, isDirectory, globFiles,
    runTransaction_ok o env.dbType env.encryptionKey user vs cs db h hdec]



theorem idMatches_of_ne (a b : Option JVal) (h : a ≠ b) : idMatches a b = false := by
  cases ha : idMatches a b
  · rfl
  · rcases (idMatches_iff a b).mp ha with ⟨x, hx, hy⟩
    exact absurd (hx.trans hy.symm) h

theorem upsertCredentials_fresh (rows : List Credential) (c : Credential)
    (h : ∀ row ∈ rows, idMatches row.id c.id = false) :
    upsertCredentials rows c = rows ++ [c] := by
  have hany : (rows.any fun row => idMatches row.id c.id) = false := by
    rw [List.any_eq_false]
    intro row hr
    simp [h row hr]
  unfold upsertCredentials
  rw [hany]
  simp

theorem upsertSharedCredentials_fresh (rows : List SharedCredentialRow)
    (r : SharedCredentialRow)
    (h : ∀ row ∈ rows, sharedKeyMatches row r = false) :
    upsertSharedCredentials rows r = rows ++ [r] := by
  have hany : (rows.any fun row => sharedKeyMatches row r) = false := by
    rw [List.any_eq_false]
    intro row hr
    simp [h row hr]
  unfold upsertSharedCredentials
  rw [hany]
  simp

theorem applyRecords_disjoint (dbType : String) (user : User) :
    ∀ (cs : List Credential) (db : DbState),
    (∀ c ∈ cs, c.id.isSome = true) →
    (cs.map (fun c => c.id)).Nodup →
    (∀ c ∈ cs, ∀ row ∈ db.credentials, idMatches row.id c.id = false) →
    (∀ c ∈ cs, ∀ l ∈ db.sharedCredentials, sharedKeyMatches l (linkOf user c) = false) →
    (applyRecords dbType user cs db).credentials = db.credentials ++ cs ∧
    (applyRecords dbType user cs db).sharedCredentials =
      db.sharedCredentials ++ cs.map (linkOf user)
  | [], db, _, _, _, _ => by simp [applyRecords]
  | c :: rest, db, hsome, hnodup, hcred, hshared => by
      have hfreshC : upsertCredentials db.credentials c = db.credentials ++ [c] :=
        upsertCredentials_fresh _ _ (fun row hr => hcred c (by simp) row hr)
      have hfreshS : upsertSharedCredentials db.sharedCredentials (linkOf user c) =
          db.sharedCredentials ++ [linkOf user c] :=
        upsertSharedCredentials_fresh _ _ (fun row hr => hshared c (by simp) row hr)
      have hne : ∀ c' ∈ rest, c'.id ≠ c.id := by
        intro c' hc' heq
        simp only [List.map_cons, List.nodup_cons, List.mem_map] at hnodup
        exact hnodup.1 ⟨c', hc', heq⟩
      have hrec := applyRecords_disjoint dbType user rest (applyStore dbType user db c)
        (fun c' hc' => hsome c' (by simp [hc']))
        (by simp only [List.map_cons, List.nodup_cons] at hnodup; exact hnodup.2)
        (by
          intro c' hc' row hrow
          rw [applyStore_credentials, hfreshC] at hrow
          simp only [List.mem_append, List.mem_singleton] at hrow
          rcases hrow with hrow | rfl
          · exact hcred c' (by simp [hc']) row hrow
          · exact idMatches_of_ne _ _ (fun heq => hne c' hc' heq.symm))
        (by
          intro c' hc' l hl
          rw [applyStore_shared, hfreshS] at hl
          simp only [List.mem_append, List.mem_singleton] at hl
          rcases hl with hl | rfl
          · exact hshared c' (by simp [hc']) l hl
          · simp only [sharedKeyMatches, linkOf]
            rw [idMatches_of_ne _ _ (fun heq => hne c' hc' heq.symm)]
            rfl)
      simp only [applyRecords, List.foldl_cons] at hrec ⊢
      rw [hrec.1, hrec.2, applyStore_credentials, applyStore_shared, hfreshC, hfreshS]
      simp [List.append_assoc]

theorem decodeRecords_length :
    ∀ (vs : List JVal) (cs : List Credential),
    decodeRecords vs = Except.ok cs → cs.length = vs.length
  | [], cs, h => by
      simp only [decodeRecords, Except.ok.injEq] at h; subst h; rfl
  | v :: rest, cs, h => by
      cases h1 : toCredential v with
      | error e => simp [decodeRecords, h1, bind, Except.bind] at h
      | ok c =>
        cases h2 : decodeRecords rest with
        | error e => simp [decodeRecords, h1, h2, bind, Except.bind] at h
        | ok cs' =>
          simp only [decodeRecords, h1, h2, bind, Except.bind, pure, Except.pure,
            Except.ok.injEq] at h
          subst h
          simp [decodeRecords_length rest cs' h2]

/-- The ownership-link table's evolution over a batch is a fold of the
link upsert over the links of the records. -/
def applyLinks (ls : List SharedCredentialRow) (t : List SharedCredentialRow) :
    List SharedCredentialRow :=
  ls.foldl upsertSharedCredentials t

theorem applyRecords_sharedCredentials (dbType : String) (user : User) :
    ∀ (cs : List Credential) (db : DbState),
    (applyRecords dbType user cs db).sharedCredentials =
      applyLinks (cs.map (linkOf user)) db.sharedCredentials
  | [], db => by simp [applyRecords, applyLinks]
  | c :: rest, db => by
      simp only [applyRecords, applyLinks, List.foldl_cons, List.map_cons]
      rw [← applyLinks, ← applyRecords,
        applyRecords_sharedCredentials dbType user rest (applyStore dbType user db c),
        applyStore_shared]

/-- Saturation of the link table at one key: some row carries the key,
and every row carrying it is the canonical link itself. -/
def GoodFor (t : List SharedCredentialRow) (l : SharedCredentialRow) : Prop :=
  (∃ r ∈ t, sharedKeyMatches r l = true) ∧
    ∀ r ∈ t, sharedKeyMatches r l = true → r = l

theorem sharedKeyMatches_self (l : SharedCredentialRow)
    (h : l.credentialsId.isSome = true) : sharedKeyMatches l l = true := by
  rcases Option.isSome_iff_exists.mp h with ⟨x, hx⟩
  exact (sharedKeyMatches_iff l l).mpr ⟨⟨x, hx, hx⟩, rfl⟩

theorem sharedKeyMatches_trans_left (r l l' : SharedCredentialRow)
    (h1 : sharedKeyMatches r l' = true) (h2 : sharedKeyMatches r l = true) :
    sharedKeyMatches l' l = true := by
  rcases (sharedKeyMatches_iff r l').mp h1 with ⟨⟨x, hx1, hx2⟩, hu1⟩
  rcases (sharedKeyMatches_iff r l).mp h2 with ⟨⟨y, hy1, hy2⟩, hu2⟩
  have hxy : x = y := Option.some.inj (hx1.symm.trans hy1)
  exact (sharedKeyMatches_iff l' l).mpr
    ⟨⟨x, hx2, hy2.trans (congrArg some hxy.symm)⟩, hu1.symm.trans hu2⟩

theorem goodFor_upsert_self (t : List SharedCredentialRow) (l : SharedCredentialRow)
    (h : l.credentialsId.isSome = true) :
    GoodFor (upsertSharedCredentials t l) l := by
  have hself := sharedKeyMatches_self l h
  unfold upsertSharedCredentials
  split
  · next hany =>
    rcases List.any_eq_true.mp hany with ⟨r, hr, hm⟩
    constructor
    · refine ⟨l, ?_, hself⟩
      rw [List.mem_map]
      exact ⟨r, hr, by simp [hm]⟩
    · intro r' hr' hm'
      rcases List.mem_map.mp hr' with ⟨r0, hr0, hfr0⟩
      by_cases hc : sharedKeyMatches r0 l = true
      · rw [← hfr0]; simp [hc]
      · rw [← hfr0] at hm' ⊢
        simp only [hc, if_false] at hm' ⊢
        exact absurd hm' hc
  · next hany =>
    have hanyf : (t.any fun row => sharedKeyMatches row l) = false :=
      Bool.eq_false_iff.mpr hany
    have hnone := List.any_eq_false.mp hanyf
    constructor
    · exact ⟨l, by simp, hself⟩
    · intro r hr hm
      rcases List.mem_append.mp hr with hr | hr
      · exact absurd hm (hnone r hr)
      · simpa using hr

theorem goodFor_upsert_other (t : List SharedCredentialRow) (l l' : SharedCredentialRow)
    (hg : GoodFor t l) (hcompat : sharedKeyMatches l' l = true → l' = l) :
    GoodFor (upsertSharedCredentials t l') l := by
  rcases hg with ⟨⟨r0, hr0, hm0⟩, hall⟩
  unfold upsertSharedCredentials
  split
  · constructor
    · by_cases hc : sharedKeyMatches r0 l' = true
      · exact ⟨l', List.mem_map.mpr ⟨r0, hr0, by simp [hc]⟩,
          sharedKeyMatches_trans_left r0 l l' hc hm0⟩
      · exact ⟨r0, List.mem_map.mpr ⟨r0, hr0, by simp [hc]⟩, hm0⟩
    · intro r hr hm
      rcases List.mem_map.mp hr with ⟨r1, hr1, hfr1⟩
      by_cases hc : sharedKeyMatches r1 l' = true
      · rw [← hfr1] at hm ⊢
        simp only [hc] at hm ⊢
        exact hcompat hm
      · rw [← hfr1] at hm ⊢
        simp only [hc, if_false] at hm ⊢
        exact hall r1 hr1 hm
  · constructor
    · exact ⟨r0, List.mem_append.mpr (Or.inl hr0), hm0⟩
    · intro r hr hm
      rcases List.mem_append.mp hr with hr | hr
      · exact hall r hr hm
      · rw [List.mem_singleton.mp hr] at hm ⊢
        exact hcompat hm

theorem goodFor_applyLinks_preserve :
    ∀ (L : List SharedCredentialRow) (t : List SharedCredentialRow)
      (l : SharedCredentialRow),
    GoodFor t l → (∀ l' ∈ L, sharedKeyMatches l' l = true → l' = l) →
    GoodFor (applyLinks L t) l
  | [], t, l, hg, _ => hg
  | l0 :: rest, t, l, hg, hcompat => by
      simp only [applyLinks, List.foldl_cons]
      rw [← applyLinks]
      exact goodFor_applyLinks_preserve rest _ l
        (goodFor_upsert_other t l l0 hg (hcompat l0 (by simp)))
        (fun l' hl' => hcompat l' (by simp [hl']))

theorem goodFor_applyLinks_establish :
    ∀ (L : List SharedCredentialRow) (t : List SharedCredentialRow)
      (l : SharedCredentialRow),
    l ∈ L → l.credentialsId.isSome = true →
    (∀ l1 ∈ L, ∀ l2 ∈ L, sharedKeyMatches l1 l2 = true → l1 = l2) →
    GoodFor (applyLinks L t) l
  | l0 :: rest, t, l, hmem, hsome, hdet => by
      simp only [applyLinks, List.foldl_cons]
      rw [← applyLinks]
      rcases List.mem_cons.mp hmem with rfl | hmem
      · exact goodFor_applyLinks_preserve rest _ l
          (goodFor_upsert_self t l hsome)
          (fun l' hl' hm => hdet l' (by simp [hl']) l (by simp) hm)
      · exact goodFor_applyLinks_establish rest _ l hmem hsome
          (fun l1 h1 l2 h2 => hdet l1 (by simp [h1]) l2 (by simp [h2]))

theorem upsertSharedCredentials_fixed (t : List SharedCredentialRow)
    (l : SharedCredentialRow) (hg : GoodFor t l) :
    upsertSharedCredentials t l = t := by
  rcases hg with ⟨⟨r0, hr0, hm0⟩, hall⟩
  unfold upsertSharedCredentials
  rw [if_pos (List.any_eq_true.mpr ⟨r0, hr0, hm0⟩)]
  rw [List.map_congr_left, List.map_id]
  intro r hr
  by_cases hc : sharedKeyMatches r l = true
  · simp [hc, (hall r hr hc).symm]
  · simp [hc]

theorem applyLinks_fixed :
    ∀ (L : List SharedCredentialRow) (t : List SharedCredentialRow),
    (∀ l ∈ L, GoodFor t l) → applyLinks L t = t
  | [], t, _ => rfl
  | l0 :: rest, t, hg => by
      simp only [applyLinks, List.foldl_cons]
      rw [← applyLinks, upsertSharedCredentials_fixed t l0 (hg l0 (by simp))]
      exact applyLinks_fixed rest t (fun l hl => hg l (by simp [hl]))

theorem applyLinks_idempotent (L : List SharedCredentialRow)
    (t : List SharedCredentialRow)
    (hsome : ∀ l ∈ L, l.credentialsId.isSome = true)
    (hdet : ∀ l1 ∈ L, ∀ l2 ∈ L, sharedKeyMatches l1 l2 = true → l1 = l2) :
    applyLinks L (applyLinks L t) = applyLinks L t :=
  applyLinks_fixed L (applyLinks L t)
    (fun l hl => goodFor_applyLinks_establish L t l hl (hsome l hl) hdet)

/-! ### Concrete fixtures for witnesses and counterexamples -/

/-- A user table holding one global owner. -/
def sampleOwner : User := ⟨"u1", GLOBAL_OWNER_ROLE⟩

/-- An environment on a backend without sequence management. -/
def sampleEnv : Env := ⟨[sampleOwner], "testKey", "sqlite"⟩

/-- An environment on the Postgres backend. -/
def sampleEnvPg : Env := ⟨[sampleOwner], "testKey", "postgresdb"⟩

/-- The oracle injecting no persistence failure. -/
def noFail : Oracle := ⟨none⟩

/-- A well-formed record with a plaintext (object) payload. -/
def sampleRecord1 : JVal :=
  .obj [("id", .str "c1"), ("name", .str "Test"), ("type", .str "x"),
        ("data", .obj [("token", .str "secret")])]

/-- A well-formed record with an already-encrypted (string) payload. -/
def sampleRecord2 : JVal :=
  .obj [("id", .str "c2"), ("name", .str "B"), ("type", .str "y"),
        ("data", .str "already-encrypted")]

/-- A record sharing `sampleRecord1`'s identifier. -/
def sampleRecordDup : JVal :=
  .obj [("id", .str "c1"), ("name", .str "Again"), ("type", .str "z"),
        ("data", .str "enc2")]

/-- The decoded form of `sampleRecord1`. -/
def sampleCred1 : Credential :=
  ⟨some (.str "c1"), some (.str "Test"), some (.str "x"),
   some (.obj [("token", .str "secret")])⟩

/-- The decoded form of `sampleRecord2`. -/
def sampleCred2 : Credential :=
  ⟨some (.str "c2"), some (.str "B"), some (.str "y"),
   some (.str "already-encrypted")⟩

/-- A well-formed record with the numeric identifier 7. -/
def sampleNumRecord1 : JVal :=
  .obj [("id", .num 7), ("name", .str "N1"), ("type", .str "x"), ("data", .str "enc")]

/-- A well-formed record with the numeric identifier 3. -/
def sampleNumRecord2 : JVal :=
  .obj [("id", .num 3), ("name", .str "N2"), ("type", .str "y"), ("data", .str "enc")]

/-- The decoded form of `sampleNumRecord1`. -/
def sampleNumCred1 : Credential :=
  ⟨some (.num 7), some (.str "N1"), some (.str "x"), some (.str "enc")⟩

/-- The decoded form of `sampleNumRecord2`. -/
def sampleNumCred2 : Credential :=
  ⟨some (.num 3), some (.str "N2"), some (.str "y"), some (.str "enc")⟩

/-! ### The claims -/

/-- C1: all database writes of an invocation happen inside one
transaction: every invocation either leaves the database exactly as it
was (any failure or early exit rolls back or never writes) or reports
full success — no partially imported batch is ever observable. -/
theorem run_all_or_nothing (o : Oracle) (env : Env) (flags : Flags) (db : DbState) :
    (run o env flags db).db = db ∨ ∃ n, (run o env flags db).result = RunResult.success n := by
  unfold run
  rcases flags with ⟨inp, sep, uid⟩
  rcases inp with _ | p
  · exact Or.inl rfl
  · repeat' split
    all_goals dsimp only
    all_goals repeat' split
    all_goals first
      | exact Or.inl rfl
      | exact Or.inr ⟨_, rfl⟩

/-- C2: per processed record, a structured (`typeof === "object"`)
payload is replaced by the encrypted string representation produced with
the configured key, and a payload that is already a string leaves the
record unchanged. -/
theorem credential_data_encrypted_or_passed_through (key : String) (c : Credential) :
    (jsTypeofIsObject c.data = true →
      (normalizeCredential key c).data =
        some (.str (encrypt key (c.data.getD .null)))) ∧
    (∀ s, c.data = some (.str s) → normalizeCredential key c = c) := by
  constructor
  · intro h
    unfold normalizeCredential
    rw [if_pos h]
  · intro s hs
    unfold normalizeCredential
    rw [hs]
    simp [jsTypeofIsObject]

/-- C2 witness: the encryption branch on a concrete object payload and
the pass-through branch on a concrete string payload. -/
theorem credential_data_encrypted_or_passed_through_witness :
    (normalizeCredential "testKey" sampleCred1).data =
      some (.str (encrypt "testKey" (.obj [("token", .str "secret")]))) ∧
    normalizeCredential "testKey" sampleCred2 = sampleCred2 :=
  ⟨(credential_data_encrypted_or_passed_through "testKey" sampleCred1).1 (by decide),
   (credential_data_encrypted_or_passed_through "testKey" sampleCred2).2
     "already-encrypted" rfl⟩

/-- C5: a directory-mode run over files parsing to the listed records is
observably identical — result, database, trace — to a single-file run
over the array concatenating those records in the same order. -/
theorem run_dir_eq_single (o : Oracle) (env : Env) (uid : Option String)
    (vs : List JVal) (db : DbState) :
    run o env ⟨some (.dir vs), true, uid⟩ db =
      run o env ⟨some (.file (.arr vs)), false, uid⟩ db := by
  unfold run
  simp only [pathExists, isDirectory, globFiles, readFileParse, jsLengthOf,
    Bool.not_true, Bool.and_false, Bool.and_true, Bool.true_and, Bool.false_and,
    if_false, Bool.false_eq_true]
  cases hres : resolveUser env.users uid with
  | error e => simp [hres]
  | ok user =>
    simp only [hres]
    cases ht : runTransaction o env.dbType env.encryptionKey user vs db with
    | error e => simp [ht]
    | ok p => simp [ht]

/-- C6 counterexample: in directory mode a nonexistent input path is not
rejected — the existence check only guards the not-a-directory test — so
the run proceeds over zero globbed files and reports success instead of
the configuration error the claim requires. -/
theorem separate_missing_path_counterexample :
    (run noFail sampleEnv ⟨some .missing, true, none⟩ emptyDb).result = .success 0 ∧
    (run noFail sampleEnv ⟨some .missing, true, none⟩ emptyDb).result ≠
      .softExit "The argument to --input must be a directory" ∧
    (run noFail sampleEnv ⟨some .missing, true, none⟩ emptyDb).db = emptyDb := by
  decide

/-- C6 (amended): in directory mode, every input path that exists and is
not a directory makes the command soft-exit with the configuration
message before any database access; a missing path is not rejected. -/
theorem separate_nondirectory_soft_exit (o : Oracle) (env : Env)
    (uid : Option String) (inp : InputPath) (db : DbState)
    (hex : pathExists inp = true) (hdir : isDirectory inp = false) :
    run o env ⟨some inp, true, uid⟩ db =
      ⟨.softExit "The argument to --input must be a directory", db, []⟩ := by
  unfold run
  simp [hex, hdir]

/-- C6 witness: a file path in directory mode soft-exits unchanged. -/
theorem separate_nondirectory_soft_exit_witness :
    (run noFail sampleEnv ⟨some (.file sampleRecord1), true, none⟩ emptyDb) =
      ⟨.softExit "The argument to --input must be a directory", emptyDb, []⟩ :=
  separate_nondirectory_soft_exit noFail sampleEnv none (.file sampleRecord1)
    emptyDb (by decide) (by decide)

/-- C7: whenever assignee resolution fails — an explicit userId matching
no account, or no userId and no global-owner account — the invocation
ends with that descriptive error, the database is untouched and no
statement was executed; the error text names the missing user or the
corrective owner-setup instruction. -/
theorem assignee_resolution_failure_aborts (o : Oracle) (env : Env) (sep : Bool)
    (uid : Option String) (inp : InputPath) (db : DbState) (e : String)
    (hguard : (sep && pathExists inp && !(isDirectory inp)) = false)
    (hres : resolveUser env.users uid = .error e) :
    run o env ⟨some inp, sep, uid⟩ db = ⟨.failure e, db, []⟩ ∧
    (∀ u, uid = some u → e = "Failed to find user with ID " ++ u) ∧
    (uid = none → e = "Failed to find owner. " ++ UM_FIX_INSTRUCTION) := by
  refine ⟨?_, ?_, ?_⟩
  · unfold run
    simp [hguard, hres]
  · intro u hu
    subst hu
    simp only [resolveUser, getAssignee] at hres
    rcases hfind : env.users.find? (fun x => x.id == u) with _ | w
    · rw [hfind] at hres
      exact (Except.error.inj hres).symm
    · rw [hfind] at hres
      cases hres
  · intro hu
    subst hu
    simp only [resolveUser, getOwner] at hres
    rcases hfind : env.users.find? (fun x => x.role == GLOBAL_OWNER_ROLE) with _ | w
    · rw [hfind] at hres
      exact (Except.error.inj hres).symm
    · rw [hfind] at hres
      cases hres

/-- C7 witness: with an empty user table and no explicit userId the run
fails with the owner-lookup error and an unchanged database. -/
theorem assignee_resolution_failure_aborts_witness :
    run noFail ⟨[], "testKey", "sqlite"⟩ ⟨some (.file (.arr [sampleRecord1])), false, none⟩ emptyDb =
      ⟨.failure ("Failed to find owner. " ++ UM_FIX_INSTRUCTION), emptyDb, []⟩ :=
  (assignee_resolution_failure_aborts noFail ⟨[], "testKey", "sqlite"⟩ false none
    (.file (.arr [sampleRecord1])) emptyDb
    ("Failed to find owner. " ++ UM_FIX_INSTRUCTION) (by decide) rfl).1

/-- C8 counterexample: a file whose JSON content is the literal `null`
does not produce the descriptive not-an-array error — reading
`credentials.length` throws a `TypeError` first. -/
theorem nonarray_descriptive_error_counterexample :
    (run noFail sampleEnv ⟨some (.file .null), false, none⟩ emptyDb).result =
      .failure "TypeError: Cannot read properties of null" ∧
    (run noFail sampleEnv ⟨some (.file .null), false, none⟩ emptyDb).result ≠
      .failure "File does not seem to contain credentials. Make sure the credentials are contained in an array." := by
  decide

/-- C8 (amended): in single-file mode, every input parsing to a
non-array value makes the command fail hard before any database
statement, leaving storage unchanged; the failure is the descriptive
not-an-array error except for the literal `null`, where the length read
throws a `TypeError` first. -/
theorem nonarray_input_fails_before_writes (o : Oracle) (env : Env)
    (uid : Option String) (user : User) (v : JVal) (db : DbState)
    (hres : resolveUser env.users uid = .ok user)
    (hnarr : ∀ xs, v ≠ .arr xs) :
    run o env ⟨some (.file v), false, uid⟩ db =
      ⟨.failure (if v = .null then "TypeError: Cannot read properties of null"
        else "File does not seem to contain credentials. Make sure the credentials are contained in an array."),
       db, []⟩ := by
  unfold run
  cases v with
  | arr xs => exact absurd rfl (hnarr xs)
  | null => simp [hres, readFileParse, jsLengthOf]
  | bool b => simp [hres, readFileParse, jsLengthOf]
  | num n => simp [hres, readFileParse, jsLengthOf]
  | str s => simp [hres, readFileParse, jsLengthOf]
  | obj fs => simp [hres, readFileParse, jsLengthOf]

/-- C8 witness: a JSON object at the top level draws the descriptive
not-an-array failure with an unchanged database. -/
theorem nonarray_input_fails_before_writes_witness :
    run noFail sampleEnv ⟨some (.file (.obj [])), false, none⟩ emptyDb =
      ⟨.failure "File does not seem to contain credentials. Make sure the credentials are contained in an array.",
       emptyDb, []⟩ := by
  have h := nonarray_input_fails_before_writes noFail sampleEnv none sampleOwner
    (.obj []) emptyDb rfl (by intro xs h; cases h)
  simpa using h

/-- C10: the record count is read off the parsed value before its
array-ness is checked: for the input `null` the run fails with the
`TypeError` of the length access, never reaching the descriptive
not-an-array error, and writes nothing. -/
theorem null_input_crashes_on_length_read (o : Oracle) (env : Env)
    (uid : Option String) (user : User) (db : DbState)
    (hres : resolveUser env.users uid = .ok user) :
    run o env ⟨some (.file .null), false, uid⟩ db =
      ⟨.failure "TypeError: Cannot read properties of null", db, []⟩ ∧
    (run o env ⟨some (.file .null), false, uid⟩ db).result ≠
      .failure "File does not seem to contain credentials. Make sure the credentials are contained in an array." := by
  constructor
  · unfold run
    simp [hres, readFileParse, jsLengthOf]
  · unfold run
    simp [hres, readFileParse, jsLengthOf]

/-- C10 witness: the `null`-input crash at a concrete environment. -/
theorem null_input_crashes_on_length_read_witness :
    run noFail sampleEnvPg ⟨some (.file .null), false, none⟩ emptyDb =
      ⟨.failure "TypeError: Cannot read properties of null", emptyDb, []⟩ :=
  (null_input_crashes_on_length_read noFail sampleEnvPg none sampleOwner emptyDb rfl).1

/-- C3 counterexample: two well-formed records sharing the identifier
"c1" import successfully with a reported count of 2, yet only one
credential row (and one ownership link) exists afterwards — the upsert
keyed on `id` collapses them. -/
theorem import_batch_counts_counterexample :
    (run noFail sampleEnv ⟨some (.file (.arr [sampleRecord1, sampleRecordDup])), false, none⟩ emptyDb).result = .success 2 ∧
    (run noFail sampleEnv ⟨some (.file (.arr [sampleRecord1, sampleRecordDup])), false, none⟩ emptyDb).db.credentials.length = 1 ∧
    (run noFail sampleEnv ⟨some (.file (.arr [sampleRecord1, sampleRecordDup])), false, none⟩ emptyDb).db.sharedCredentials.length = 1 ∧
    (run noFail sampleEnv ⟨some (.file (.arr [sampleRecord1, sampleRecordDup])), false, none⟩ emptyDb).db.credentials.length ≠ 2 := by
  decide

/-- C3 (amended): for every valid single-file input of N well-formed
records carrying pairwise-distinct identifiers, imported into an empty
store, a successful run leaves exactly N credential rows and exactly N
ownership links, and every link pairs a stored credential with the
resolved assignee under the credential-owner role. -/
theorem import_batch_counts (o : Oracle) (env : Env) (uid : Option String)
    (user : User) (vs : List JVal) (cs : List Credential)
    (hfail : o.failAt = none)
    (hres : resolveUser env.users uid = .ok user)
    (hdec : decodeRecords vs = Except.ok cs)
    (hsome : ∀ c ∈ cs, c.id.isSome = true)
    (hnodup : (cs.map (fun c => c.id)).Nodup) :
    (run o env ⟨some (.file (.arr vs)), false, uid⟩ emptyDb).result = .success vs.length ∧
    (run o env ⟨some (.file (.arr vs)), false, uid⟩ emptyDb).db.credentials.length = vs.length ∧
    (run o env ⟨some (.file (.arr vs)), false, uid⟩ emptyDb).db.sharedCredentials.length = vs.length ∧
    ∀ l ∈ (run o env ⟨some (.file (.arr vs)), false, uid⟩ emptyDb).db.sharedCredentials,
      l.userId = user.id ∧ l.role = CREDENTIAL_OWNER_ROLE ∧
      ∃ c ∈ (run o env ⟨some (.file (.arr vs)), false, uid⟩ emptyDb).db.credentials,
        c.id = l.credentialsId := by
  rw [run_single_ok o env uid user vs cs emptyDb hfail hres hdec]
  dsimp only
  have hmapid : (cs.map (normalizeCredential env.encryptionKey)).map (fun c => c.id)
      = cs.map (fun c => c.id) := by
    rw [List.map_map]
    exact List.map_congr_left (fun c _ => normalizeCredential_id env.encryptionKey c)
  have hsome' : ∀ c ∈ cs.map (normalizeCredential env.encryptionKey), c.id.isSome = true := by
    intro c hc
    rcases List.mem_map.mp hc with ⟨c0, hc0, rfl⟩
    rw [normalizeCredential_id]
    exact hsome c0 hc0
  have hd := applyRecords_disjoint env.dbType user
    (cs.map (normalizeCredential env.encryptionKey)) emptyDb
    hsome' (by rw [hmapid]; exact hnodup)
    (by intro c hc row hrow; simp [emptyDb] at hrow)
    (by intro c hc l hl; simp [emptyDb] at hl)
  have hlen := decodeRecords_length vs cs hdec
  refine ⟨rfl, ?_, ?_, ?_⟩
  · rw [hd.1]
    simp [emptyDb, hlen]
  · rw [hd.2]
    simp [emptyDb, hlen]
  · intro l hl
    rw [hd.2] at hl
    simp only [emptyDb, List.nil_append, List.mem_map] at hl
    rcases hl with ⟨c, hc, rfl⟩
    refine ⟨rfl, rfl, c, ?_, rfl⟩
    rw [hd.1]
    simp [emptyDb, hc]

/-- C3 witness: two distinct well-formed records import into exactly two
credential rows and two links, all owned by the assignee. -/
theorem import_batch_counts_witness :
    (run noFail sampleEnv ⟨some (.file (.arr [sampleRecord1, sampleRecord2])), false, none⟩ emptyDb).result = .success 2 ∧
    (run noFail sampleEnv ⟨some (.file (.arr [sampleRecord1, sampleRecord2])), false, none⟩ emptyDb).db.credentials.length = 2 ∧
    (run noFail sampleEnv ⟨some (.file (.arr [sampleRecord1, sampleRecord2])), false, none⟩ emptyDb).db.sharedCredentials.length = 2 ∧
    ∀ l ∈ (run noFail sampleEnv ⟨some (.file (.arr [sampleRecord1, sampleRecord2])), false, none⟩ emptyDb).db.sharedCredentials,
      l.userId = sampleOwner.id ∧ l.role = CREDENTIAL_OWNER_ROLE ∧
      ∃ c ∈ (run noFail sampleEnv ⟨some (.file (.arr [sampleRecord1, sampleRecord2])), false, none⟩ emptyDb).db.credentials,
        c.id = l.credentialsId :=
  import_batch_counts noFail sampleEnv none sampleOwner
    [sampleRecord1, sampleRecord2] [sampleCred1, sampleCred2]
    rfl rfl rfl (by decide) (by decide)

/-- C4: re-running the same single-file import against the storage the
first run produced leaves the ownership-link table exactly as the first
run left it — the link upsert keyed on the (credential identifier, user
identifier) pair makes the import idempotent for ownership. -/
theorem import_rerun_same_links (o : Oracle) (env : Env) (uid : Option String)
    (user : User) (vs : List JVal) (cs : List Credential) (db : DbState)
    (hfail : o.failAt = none)
    (hres : resolveUser env.users uid = .ok user)
    (hdec : decodeRecords vs = Except.ok cs)
    (hsome : ∀ c ∈ cs, c.id.isSome = true) :
    (run o env ⟨some (.file (.arr vs)), false, uid⟩
        (run o env ⟨some (.file (.arr vs)), false, uid⟩ db).db).db.sharedCredentials =
      (run o env ⟨some (.file (.arr vs)), false, uid⟩ db).db.sharedCredentials := by
  rw [run_single_ok o env uid user vs cs db hfail hres hdec]
  dsimp only
  rw [run_single_ok o env uid user vs cs _ hfail hres hdec]
  dsimp only
  simp only [applyRecords_sharedCredentials]
  apply applyLinks_idempotent
  · intro l hl
    rcases List.mem_map.mp hl with ⟨c, hc, rfl⟩
    rcases List.mem_map.mp hc with ⟨c0, hc0, rfl⟩
    show (normalizeCredential env.encryptionKey c0).id.isSome = true
    rw [normalizeCredential_id]
    exact hsome c0 hc0
  · intro l1 h1 l2 h2 hm
    rcases List.mem_map.mp h1 with ⟨c1, _, rfl⟩
    rcases List.mem_map.mp h2 with ⟨c2, _, rfl⟩
    rcases (sharedKeyMatches_iff _ _).mp hm with ⟨⟨x, hx1, hx2⟩, _⟩
    show linkOf user c1 = linkOf user c2
    unfold linkOf
    rw [show c1.id = c2.id from hx1.trans hx2.symm]

/-- C4 witness: re-running the concrete two-record import reproduces the
first run's ownership-link table. -/
theorem import_rerun_same_links_witness :
    (run noFail sampleEnv ⟨some (.file (.arr [sampleRecord1, sampleRecord2])), false, none⟩
        (run noFail sampleEnv ⟨some (.file (.arr [sampleRecord1, sampleRecord2])), false, none⟩ emptyDb).db).db.sharedCredentials =
      (run noFail sampleEnv ⟨some (.file (.arr [sampleRecord1, sampleRecord2])), false, none⟩ emptyDb).db.sharedCredentials :=
  import_rerun_same_links noFail sampleEnv none sampleOwner
    [sampleRecord1, sampleRecord2] [sampleCred1, sampleCred2] emptyDb
    rfl rfl rfl (by decide)

theorem batchEvents_cons (dbType : String) (user : User) (c : Credential)
    (cs : List Credential) :
    batchEvents dbType user (c :: cs) =
      storeEvents dbType user c ++ batchEvents dbType user cs := by
  simp [batchEvents]

theorem countSetSeq_append (a b : List DbEvent) :
    countSetSeq (a ++ b) = countSetSeq a + countSetSeq b := by
  simp [countSetSeq, List.filter_append]

theorem countSetSeq_storeEvents_pg (user : User) (c : Credential) :
    countSetSeq (storeEvents "postgresdb" user c) = 1 := by
  simp [countSetSeq, storeEvents, isSetSeq]

theorem countSetSeq_batchEvents_pg (user : User) :
    ∀ cs : List Credential, countSetSeq (batchEvents "postgresdb" user cs) = cs.length
  | [] => rfl
  | c :: rest => by
      rw [batchEvents_cons, countSetSeq_append, countSetSeq_storeEvents_pg,
        countSetSeq_batchEvents_pg user rest]
      simp [Nat.add_comm]

theorem applyRecords_seq_pg (user : User) :
    ∀ (cs : List Credential) (db : DbState), cs ≠ [] →
    (applyRecords "postgresdb" user cs db).seq =
      credMaxId (applyRecords "postgresdb" user cs db).credentials
  | [], _, h => absurd rfl h
  | [c], db, _ => by
      simp only [applyRecords, List.foldl_cons, List.foldl_nil]
      rw [applyStore_seq, applyStore_credentials]
      simp
  | c1 :: c2 :: rest, db, _ => by
      simp only [applyRecords, List.foldl_cons]
      have h := applyRecords_seq_pg user (c2 :: rest)
        (applyStore "postgresdb" user db c1) (by simp)
      simp only [applyRecords, List.foldl_cons] at h
      exact h

/-- C9 counterexample: on Postgres a concrete two-record batch executes
the `setval` repair twice, once per record inside the loop — the first
repair statement is followed by further row writes, so the repair is not
performed (once) after the loop as the claim states. -/
theorem sequence_repair_after_loop_counterexample :
    seqRepairOnlyAfterWrites
      (run noFail sampleEnvPg ⟨some (.file (.arr [sampleRecord1, sampleRecord2])), false, none⟩ emptyDb).events = false ∧
    countSetSeq
      (run noFail sampleEnvPg ⟨some (.file (.arr [sampleRecord1, sampleRecord2])), false, none⟩ emptyDb).events = 2 ∧
    (run noFail sampleEnvPg ⟨some (.file (.arr [sampleRecord1, sampleRecord2])), false, none⟩ emptyDb).events.map isSetSeq =
      [false, false, true, false, false, true] := by
  decide

/-- C9 (amended): on the Postgres backend the identifier-sequence repair
runs once per record, inside the loop (it is part of `storeCredential`);
after a successful run over a nonempty batch the sequence holds the
current maximum credential identifier, so future inserts do not
collide. -/
theorem sequence_repair_per_record (o : Oracle) (env : Env) (uid : Option String)
    (user : User) (vs : List JVal) (cs : List Credential) (db : DbState)
    (hpg : env.dbType = "postgresdb")
    (hfail : o.failAt = none)
    (hres : resolveUser env.users uid = .ok user)
    (hdec : decodeRecords vs = Except.ok cs)
    (hne : vs ≠ []) :
    (run o env ⟨some (.file (.arr vs)), false, uid⟩ db).result = .success vs.length ∧
    countSetSeq (run o env ⟨some (.file (.arr vs)), false, uid⟩ db).events = vs.length ∧
    (run o env ⟨some (.file (.arr vs)), false, uid⟩ db).db.seq =
      credMaxId (run o env ⟨some (.file (.arr vs)), false, uid⟩ db).db.credentials := by
  rw [run_single_ok o env uid user vs cs db hfail hres hdec]
  dsimp only
  have hlen := decodeRecords_length vs cs hdec
  have hcs : cs ≠ [] := by
    intro h
    subst h
    exact hne (List.length_eq_zero.mp hlen.symm)
  have hncs : cs.map (normalizeCredential env.encryptionKey) ≠ [] := by
    simp [hcs]
  refine ⟨rfl, ?_, ?_⟩
  · rw [hpg, countSetSeq_batchEvents_pg]
    simp [hlen]
  · rw [hpg]
    exact applyRecords_seq_pg user _ db hncs

/-- C9 witness: two records with numeric identifiers 7 and 3 on Postgres
draw one repair per record and leave the sequence at the maximum stored
identifier. -/
theorem sequence_repair_per_record_witness :
    (run noFail sampleEnvPg ⟨some (.file (.arr [sampleNumRecord1, sampleNumRecord2])), false, none⟩ emptyDb).result = .success 2 ∧
    countSetSeq (run noFail sampleEnvPg ⟨some (.file (.arr [sampleNumRecord1, sampleNumRecord2])), false, none⟩ emptyDb).events = 2 ∧
    (run noFail sampleEnvPg ⟨some (.file (.arr [sampleNumRecord1, sampleNumRecord2])), false, none⟩ emptyDb).db.seq =
      credMaxId (run noFail sampleEnvPg ⟨some (.file (.arr [sampleNumRecord1, sampleNumRecord2])), false, none⟩ emptyDb).db.credentials :=
  sequence_repair_per_record noFail sampleEnvPg none sampleOwner
    [sampleNumRecord1, sampleNumRecord2] [sampleNumCred1, sampleNumCred2] emptyDb
    rfl rfl rfl rfl (by decide)

end N8n
